import Mathlib

/-!
Verification development for the bilingual blog-post consistency validator
(`scripts/validate-blog-posts.ts`).  The script is embedded shallowly:

* the front-matter parser (`parseFrontmatter`) is modelled character-by-character,
  including the JavaScript regex `^---\s*\n([\s\S]*?)\n---` (greedy `\s*`,
  lazy capture group) and the line-oriented YAML-ish loop with its mutable
  `currentKey` / `currentObject` state;
* JavaScript dynamic values stored in a post's front-matter record are modelled
  by `FMValue` (string, boolean, array of strings, nested string object), and
  JavaScript truthiness / `===` comparisons are modelled explicitly;
* the field validator (`validateBlogPosts`), the cross-language link validator
  (`validateRelatedSlugs`) and the exit-status logic of `main` are translated
  directly.
-/

/-- Membership in the JavaScript `\s` character class (also the character set
removed by `String.prototype.trim`): ASCII whitespace, NBSP, the Unicode
space separators, line/paragraph separators and the BOM. -/
def isWS (c : Char) : Bool :=
  c == ' ' || c == '\t' || c == '\n' || c == '\r' || c == '\x0b' || c == '\x0c' ||
  c.toNat == 0x00A0 || c.toNat == 0x1680 ||
  (0x2000 ≤ c.toNat && c.toNat ≤ 0x200A) ||
  c.toNat == 0x2028 || c.toNat == 0x2029 || c.toNat == 0x202F ||
  c.toNat == 0x205F || c.toNat == 0x3000 || c.toNat == 0xFEFF

/-- JavaScript `String.prototype.trimStart` on a character list. -/
def trimStartL (l : List Char) : List Char := l.dropWhile isWS

/-- JavaScript `String.prototype.trimEnd` on a character list. -/
def trimEndL (l : List Char) : List Char := ((l.reverse).dropWhile isWS).reverse

/-- JavaScript `String.prototype.trim` on a character list. -/
def trimL (l : List Char) : List Char := trimEndL (trimStartL l)

/-- JavaScript `value.replace(/^["']|["']$/g, "")`: remove one leading quote
character (double or single) and one non-overlapping trailing quote character. -/
def stripQuotes (l : List Char) : List Char :=
  let l1 := if l.head? == some '"' || l.head? == some '\'' then l.drop 1 else l
  if l1.getLast? == some '"' || l1.getLast? == some '\'' then l1.dropLast else l1

/-- JavaScript `String.prototype.split` with a single-character separator:
always returns at least one (possibly empty) segment. -/
def splitAll (sep : Char) : List Char → List (List Char)
  | [] => [[]]
  | c :: cs =>
    if c == sep then [] :: splitAll sep cs
    else
      match splitAll sep cs with
      | [] => [[c]]
      | h :: t => (c :: h) :: t

/-- Split at the first occurrence of `sep` (JavaScript `indexOf` + the two
`substring` calls around the found index); `none` when `sep` does not occur
(JavaScript `includes` failing). -/
def splitFirst (sep : Char) : List Char → Option (List Char × List Char)
  | [] => none
  | c :: cs =>
    if c == sep then some ([], cs)
    else (splitFirst sep cs).map (fun p => (c :: p.1, p.2))

/-- Index of the first occurrence of the pattern `pat` as a contiguous
sublist of `s` (leftmost-match semantics of a regex scan). -/
def findSub (pat : List Char) : List Char → Option Nat
  | [] => if pat.isEmpty then some 0 else none
  | c :: cs =>
    if pat.isPrefixOf (c :: cs) then some 0
    else (findSub pat cs).map (· + 1)

/-- One attempt of the regex `^---\s*\n([\s\S]*?)\n---` after the literal
`---`, with the greedy `\s*` consuming exactly `j` characters: the `j`
consumed characters must all be whitespace, the next character must be a
newline, and the lazy group then extends to the first later `"\n---"`. -/
def fmAttempt (rest : List Char) (j : Nat) : Option (List Char) :=
  if (rest.take j).all isWS ∧ rest.get? j = some '\n' then
    match findSub ['\n', '-', '-', '-'] (rest.drop (j + 1)) with
    | some k => some ((rest.drop (j + 1)).take k)
    | none => none
  else none

/-- Backtracking search of the regex engine: the greedy `\s*` tries the
longest consumption first and backs off one character at a time. -/
def fmFindFrom (rest : List Char) : Nat → Option (List Char)
  | 0 => fmAttempt rest 0
  | j + 1 =>
    match fmAttempt rest (j + 1) with
    | some g => some g
    | none => fmFindFrom rest j

/-- The front-matter regex `content.match` with `^---\s*\n([\s\S]*?)\n---`:
anchored at the start of the document, it requires the literal `---`,
whitespace up to a newline, and returns the lazily captured group ending
before the first subsequent `"\n---"`. -/
def fmMatch (cs : List Char) : Option (List Char) :=
  if cs.take 3 = ['-', '-', '-'] then
    fmFindFrom (cs.drop 3) (cs.drop 3).length
  else none

/-- A header block is present in the document, phrased as the specification
describes it: the document opens with the `---` marker, some whitespace run
ends the marker line, and a closing `"\n---"` marker appears later. -/
def hasHeaderBlock (cs : List Char) : Bool :=
  cs.take 3 == ['-', '-', '-'] &&
  (List.range cs.length).any fun j =>
    ((cs.drop 3).take j).all isWS && (cs.drop 3).get? j == some '\n' &&
    (findSub ['\n', '-', '-', '-'] ((cs.drop 3).drop (j + 1))).isSome

/-- A dynamic value held in a parsed front-matter record: the simple YAML
parser only ever produces strings, booleans, arrays of strings, and nested
objects whose properties are strings. -/
inductive FMValue where
  | str (s : String)
  | bool (b : Bool)
  | arr (xs : List String)
  | obj (fields : List (String × String))
deriving DecidableEq, Repr

/-- JavaScript object property update `o[k] = v`: overwrite in place when the
key exists (keeping its insertion position), append otherwise. -/
def assocSet {β : Type} (data : List (String × β)) (k : String) (v : β) :
    List (String × β) :=
  match data with
  | [] => [(k, v)]
  | (k', v') :: rest =>
    if k' == k then (k, v) :: rest else (k', v') :: assocSet rest k v

/-- Mutable state of the parsing loop in `parseFrontmatter`: the record built
so far, the most recent top-level key, the object currently aliased by the
`currentObject` variable, and the record key (if any) that still holds that
very object, so that writes through the alias stay visible in the record. -/
structure PState where
  data : List (String × FMValue)
  currentKey : Option String
  currentObject : Option (List (String × String))
  objAlias : Option String
deriving DecidableEq, Repr

/-- JavaScript truthiness of `currentKey` (`null` and the empty string are
falsy). -/
def currentKeyTruthy (st : PState) : Bool :=
  match st.currentKey with
  | some k => !(k == "")
  | none => false

/-- The nested-property branch of the parsing loop: split the trimmed line on
every colon, rejoin the tail with colons, trim and unquote, and assign the
property on the aliased object (visible in the record only while the alias
is still stored there). -/
def nestedStep (st : PState) (trimmed : List Char) : PState :=
  match splitAll ':' trimmed with
  | [] => st
  | key :: valueParts =>
    let value := String.mk (stripQuotes (trimL (List.intercalate [':'] valueParts)))
    match st.currentObject with
    | none => st
    | some obj =>
      let obj2 := assocSet obj (String.mk (trimL key)) value
      { st with
        currentObject := some obj2,
        data := match st.objAlias with
                | some a => assocSet st.data a (.obj obj2)
                | none => st.data }

/-- The dash-item branch of the parsing loop: push the unquoted item onto
`data[currentKey]`, first replacing whatever is stored there by a fresh
array when it is not already an array (which orphans a previously aliased
object stored under the same key). -/
def arrayStep (st : PState) (trimmed : List Char) : PState :=
  match st.currentKey with
  | none => st
  | some ck =>
    let item := String.mk (stripQuotes (trimL (trimmed.drop 2)))
    match List.lookup ck st.data with
    | some (.arr xs) => { st with data := assocSet st.data ck (.arr (xs ++ [item])) }
    | _ =>
      { st with
        data := assocSet st.data ck (.arr [item]),
        objAlias := if st.objAlias == some ck then none else st.objAlias }

/-- The root-level key/value branch of the parsing loop: split at the first
colon; an empty value opens a fresh nested object, a bracketed value is an
inline array split on commas, `true`/`false` become booleans, and anything
else is stored as a string. -/
def rootStep (st : PState) (trimmed : List Char) : PState :=
  match splitFirst ':' trimmed with
  | none => st
  | some (pre, post) =>
    let key := String.mk (trimL pre)
    let value := stripQuotes (trimL post)
    if value.isEmpty then
      { data := assocSet st.data key (.obj []),
        currentKey := some key, currentObject := some [], objAlias := some key }
    else if value.head? == some '[' && value.getLast? == some ']' then
      { data := assocSet st.data key
          (.arr ((splitAll ',' ((value.drop 1).dropLast)).map
            (fun e => String.mk (stripQuotes (trimL e))))),
        currentKey := some key, currentObject := none, objAlias := none }
    else if value == "true".data || value == "false".data then
      { data := assocSet st.data key (.bool (value == "true".data)),
        currentKey := some key, currentObject := none, objAlias := none }
    else
      { data := assocSet st.data key (.str (String.mk value)),
        currentKey := some key, currentObject := none, objAlias := none }

/-- One iteration of the `for` loop over header lines in `parseFrontmatter`:
skip blank and comment lines, then dispatch on indentation and shape exactly
in the source's order (nested property, dash item, root key/value, skip). -/
def stepLine (st : PState) (line : List Char) : PState :=
  let trimmed := trimL line
  if trimmed.isEmpty || trimmed.head? == some '#' then st
  else
    let leadingSpaces := line.length - (trimStartL line).length
    if 2 ≤ leadingSpaces ∧ currentKeyTruthy st = true ∧ st.currentObject.isSome = true then
      nestedStep st trimmed
    else if ['-', ' '].isPrefixOf trimmed then
      if currentKeyTruthy st then arrayStep st trimmed else st
    else if (splitFirst ':' trimmed).isSome ∧ leadingSpaces = 0 then
      rootStep st trimmed
    else st

/-- The `parseFrontmatter` function of the script: extract the header block
with the anchored regex (empty record when it does not match), split the
captured text on newlines and fold the line-parsing loop over it. -/
def parseFrontmatter (content : String) : List (String × FMValue) :=
  match fmMatch content.data with
  | none => []
  | some ft => ((splitAll '\n' ft).foldl stepLine ⟨[], none, none, none⟩).data

/-- The two supported locales of the blog. -/
inductive Lang where
  | es
  | en
deriving DecidableEq, Repr

/-- The ternary `post.lang === "es" ? "en" : "es"` computing the target
language of a translation link. -/
def oppositeLang : Lang → Lang
  | .es => .en
  | .en => .es

/-- The string form of a language, as interpolated into messages. -/
def langName : Lang → String
  | .es => "es"
  | .en => "en"

/-- Severity of a finding, the `type` field of the script's
`ValidationError` interface. -/
inductive Severity where
  | error
  | warning
deriving DecidableEq, Repr

/-- A finding, the script's `ValidationError` interface. -/
structure ValidationError where
  type : Severity
  file : String
  message : String
deriving DecidableEq, Repr

/-- An in-memory post record, the script's `BlogPost` interface; `data` is
the loosely typed record produced by `parseFrontmatter`. -/
structure BlogPost where
  lang : Lang
  slug : String
  filePath : String
  data : List (String × FMValue)
deriving DecidableEq, Repr

/-- The `path.relative(process.cwd(), post.filePath)` computation used for
the `file` field of findings: a display-only re-rendering of the stored
path, modelled as the stored path itself. -/
def relFile (post : BlogPost) : String := post.filePath

/-- JavaScript truthiness of an `FMValue`: the empty string and `false` are
falsy; every array and every object is truthy. -/
def truthyV : FMValue → Bool
  | .str s => !(s == "")
  | .bool b => b
  | .arr _ => true
  | .obj _ => true

/-- JavaScript truthiness of a possibly absent property (`undefined` is
falsy). -/
def truthyOpt : Option FMValue → Bool
  | none => false
  | some v => truthyV v

/-- The JavaScript comparison `value === someString` where `value` is a
dynamic front-matter value: only a string compares equal to a string. -/
def fmEqStr (v : FMValue) (s : String) : Bool :=
  match v with
  | .str t => t == s
  | _ => false

/-- The JavaScript comparison `maybeValue === someString` where the left side
may also be `undefined`. -/
def fmOptEqStr (v : Option FMValue) (s : String) : Bool :=
  match v with
  | some w => fmEqStr w s
  | none => false

/-- JavaScript string coercion of a dynamic value inside a template literal:
arrays join with commas and plain objects render as `[object Object]`. -/
def fmToString : FMValue → String
  | .str s => s
  | .bool b => if b then "true" else "false"
  | .arr xs => String.intercalate "," xs
  | .obj _ => "[object Object]"

/-- JavaScript string coercion of a possibly absent dynamic value
(`undefined` renders as `undefined`). -/
def fmOptToString : Option FMValue → String
  | none => "undefined"
  | some v => fmToString v

/-- The JavaScript expression `value.length === 0` on a dynamic value:
arrays and strings report their length, and `.length` of a boolean or plain
object is `undefined`, which is not `=== 0`. -/
def lengthIsZero : FMValue → Bool
  | .str s => s == ""
  | .arr xs => xs.isEmpty
  | .bool _ => false
  | .obj _ => false

/-- Property read `v.url` / `v.alt` on a dynamic value: only a nested object
has string properties. -/
def getProp (v : FMValue) (k : String) : Option String :=
  match v with
  | .obj fields => List.lookup k fields
  | _ => none

/-- JavaScript truthiness of a possibly absent string property. -/
def strTruthyOpt : Option String → Bool
  | none => false
  | some s => !(s == "")

/-- The `requiredFields` array of `validateBlogPosts`. -/
def requiredFields : List String := ["title", "description", "pubDate", "relatedSlug"]

/-- The required-field check of `validateBlogPosts` for one field: a falsy
(absent, empty-string or `false`) value produces one error finding. -/
def missingFieldCheck (post : BlogPost) (field : String) : List ValidationError :=
  if truthyOpt (List.lookup field post.data) then []
  else [⟨.error, relFile post, "Missing required field: " ++ field⟩]

/-- The `draft` check of `validateBlogPosts`: a warning exactly when the
property is absent (`=== undefined`, so an explicit `false` passes). -/
def draftCheck (post : BlogPost) : List ValidationError :=
  match List.lookup "draft" post.data with
  | none => [⟨.warning, relFile post, "Missing 'draft' field (defaults to false)"⟩]
  | some _ => []

/-- The `tags` check of `validateBlogPosts`: falsy or zero-length tags
produce a warning. -/
def tagsCheck (post : BlogPost) : List ValidationError :=
  match List.lookup "tags" post.data with
  | none => [⟨.warning, relFile post, "No tags specified"⟩]
  | some v =>
    if !truthyV v || lengthIsZero v then
      [⟨.warning, relFile post, "No tags specified"⟩]
    else []

/-- The `author` check of `validateBlogPosts`. -/
def authorCheck (post : BlogPost) : List ValidationError :=
  if truthyOpt (List.lookup "author" post.data) then []
  else [⟨.warning, relFile post, "Missing 'author' field (defaults to Óscar Gallego)"⟩]

/-- The `image` check of `validateBlogPosts`: missing image is a warning, an
image without a truthy `url` is an error, and a truthy `url` without a
truthy `alt` is a warning. -/
def imageCheck (post : BlogPost) : List ValidationError :=
  match List.lookup "image" post.data with
  | none => [⟨.warning, relFile post, "No image specified"⟩]
  | some v =>
    if !truthyV v then [⟨.warning, relFile post, "No image specified"⟩]
    else if !strTruthyOpt (getProp v "url") then
      [⟨.error, relFile post, "Image object missing 'url' field"⟩]
    else if !strTruthyOpt (getProp v "alt") then
      [⟨.warning, relFile post, "Image missing 'alt' text"⟩]
    else []

/-- The loop body of `validateBlogPosts` for one post: required fields in
declaration order, then the draft, tags, author and image checks. -/
def fieldFindings (post : BlogPost) : List ValidationError :=
  (requiredFields.flatMap (missingFieldCheck post))
    ++ draftCheck post ++ tagsCheck post ++ authorCheck post ++ imageCheck post

/-- The `validateBlogPosts` function of the script. -/
def validateBlogPosts (posts : List BlogPost) : List ValidationError :=
  posts.flatMap fieldFindings

/-- The lookup `postsByLang[lang].get(slug)`: the `Map` built from the
language-filtered post list keyed by slug keeps the last entry for a
duplicated key. -/
def langGet (posts : List BlogPost) (l : Lang) (slug : String) : Option BlogPost :=
  (posts.filter (fun p => p.lang == l && p.slug == slug)).getLast?

/-- The lookup `postsByLang[targetLang].get(post.data.relatedSlug)` with a
dynamic key: only a string key can match the string-keyed map. -/
def mapGetFM (posts : List BlogPost) (l : Lang) : FMValue → Option BlogPost
  | .str s => langGet posts l s
  | _ => none

/-- The loop body of `validateRelatedSlugs` for one post: warn on a falsy
`relatedSlug`, reject self-reference, reject a dangling reference into the
opposite-language map, and finally reject an asymmetric back-link. -/
def linkFindings (posts : List BlogPost) (post : BlogPost) : List ValidationError :=
  match List.lookup "relatedSlug" post.data with
  | none => [⟨.warning, relFile post, "No translation link (relatedSlug) specified"⟩]
  | some v =>
    if !truthyV v then
      [⟨.warning, relFile post, "No translation link (relatedSlug) specified"⟩]
    else if fmEqStr v post.slug then
      [⟨.error, relFile post, "relatedSlug points to itself: \"" ++ fmToString v ++ "\""⟩]
    else
      match mapGetFM posts (oppositeLang post.lang) v with
      | none =>
        [⟨.error, relFile post,
          "relatedSlug \"" ++ fmToString v ++ "\" not found in "
            ++ langName (oppositeLang post.lang) ++ " posts"⟩]
      | some relatedPost =>
        if !fmOptEqStr (List.lookup "relatedSlug" relatedPost.data) post.slug then
          [⟨.error, relFile post,
            "relatedSlug mismatch: this post links to \"" ++ fmToString v
              ++ "\", but that post links to \""
              ++ fmOptToString (List.lookup "relatedSlug" relatedPost.data)
              ++ "\" instead of \"" ++ post.slug ++ "\""⟩]
        else []

/-- The `validateRelatedSlugs` function of the script. -/
def validateRelatedSlugs (posts : List BlogPost) : List ValidationError :=
  posts.flatMap (linkFindings posts)

/-- The exit status computed by `main`: `0` when there are no findings at
all, otherwise `1` exactly when at least one error-severity finding exists
(warnings alone fall through to a normal exit). -/
def mainExitCode (posts : List BlogPost) : Nat :=
  let allErrors := validateBlogPosts posts ++ validateRelatedSlugs posts
  if allErrors.isEmpty then 0
  else if 0 < (allErrors.filter (fun e => e.type == Severity.error)).length then 1
  else 0

/-- The `f.endsWith(".md")` filter of `getBlogPosts`. -/
def endsWithMd (name : String) : Bool :=
  List.isSuffixOf ".md".data name.data

/-- The `file.replace(/\.md$/, "")` slug derivation of `getBlogPosts`. -/
def stripMd (name : String) : String :=
  if endsWithMd name then String.mk (name.data.take (name.data.length - 3)) else name

/-- The `getBlogPosts` loader over an explicit directory snapshot: for each
language (Spanish first, then English, as in the source), keep the `.md`
files and build a post record from each file name and its contents. -/
def loadPosts (esFiles enFiles : List (String × String)) : List BlogPost :=
  ((esFiles.filter (fun f => endsWithMd f.1)).map
    (fun f => ⟨.es, stripMd f.1, "src/content/blog/es/" ++ f.1, parseFrontmatter f.2⟩))
  ++ ((enFiles.filter (fun f => endsWithMd f.1)).map
    (fun f => ⟨.en, stripMd f.1, "src/content/blog/en/" ++ f.1, parseFrontmatter f.2⟩))

/-- One full validation run of `main` over a directory snapshot: load and
parse the posts, run both validators, and compute the finding sequence
together with the exit status. -/
def runValidator (esFiles enFiles : List (String × String)) :
    List ValidationError × Nat :=
  let posts := loadPosts esFiles enFiles
  (validateBlogPosts posts ++ validateRelatedSlugs posts, mainExitCode posts)

/-- Recognizer for mismatch findings: the asymmetric-back-link error is the
only finding of `validateRelatedSlugs` whose message begins with
`relatedSlug mismatch` (the self-reference and not-found messages start
differently within their fixed prefixes). -/
def isMismatchMsg (m : String) : Bool :=
  List.isPrefixOf ("relatedSlug mismatch" : String).data m.data

/-- Concrete post: Spanish side of a correctly linked pair (spec example
scenario 1). -/
def fooEs : BlogPost := ⟨.es, "foo", "es/foo.md", [("relatedSlug", .str "foo-en")]⟩

/-- Concrete post: English side of a correctly linked pair (spec example
scenario 1). -/
def fooEn : BlogPost := ⟨.en, "foo-en", "en/foo-en.md", [("relatedSlug", .str "foo")]⟩

/-- Concrete post for the asymmetric chain: `a` (en) links to `b`. -/
def chainA : BlogPost := ⟨.en, "a", "a.md", [("relatedSlug", .str "b")]⟩

/-- Concrete post for the asymmetric chain: `b` (es) links to `c`, not back
to `a`. -/
def chainB : BlogPost := ⟨.es, "b", "b.md", [("relatedSlug", .str "c")]⟩

/-- Concrete post for the asymmetric chain: `c` (en) links to `q`. -/
def chainC : BlogPost := ⟨.en, "c", "c.md", [("relatedSlug", .str "q")]⟩

/-- Concrete post whose `relatedSlug` names a slug that exists in no
partition. -/
def danglingB : BlogPost := ⟨.es, "b", "b.md", [("relatedSlug", .str "zzz")]⟩

/-- Concrete post with an empty front-matter record (every required field
absent). -/
def sparse : BlogPost := ⟨.en, "s", "s.md", []⟩

example : parseFrontmatter "---\ntags: []\n---" = [("tags", .arr [""])] := by decide

example : parseFrontmatter "---\ntitle: Hello\ndraft: false\n---\nbody" =
    [("title", .str "Hello"), ("draft", .bool false)] := by decide

example : parseFrontmatter "no header here" = [] := by decide

example :
    parseFrontmatter "---\nimage:\n  url: \"x.png\"\n  alt: pic\n---" =
      [("image", .obj [("url", "x.png"), ("alt", "pic")])] := by decide

/-! ### Helper lemmas and claim theorems -/

lemma oppositeLang_of_ne {a b : Lang} (h : a ≠ b) : oppositeLang a = b := by
  cases a <;> cases b <;> simp_all [oppositeLang]

lemma filter_pos_iff_any {α : Type} (p : α → Bool) (l : List α) :
    0 < (l.filter p).length ↔ l.any p = true := by
  rw [List.length_pos, Ne, List.filter_eq_nil_iff, List.any_eq_true]
  push_neg
  simp

lemma mainExitCode_eq_if (posts : List BlogPost) :
    mainExitCode posts =
      if (validateBlogPosts posts ++ validateRelatedSlugs posts).any
          (fun e => e.type == Severity.error) then 1 else 0 := by
  simp only [mainExitCode]
  cases hany : (validateBlogPosts posts ++ validateRelatedSlugs posts).any
      (fun e => e.type == Severity.error) with
  | true =>
    have hpos : 0 < ((validateBlogPosts posts ++ validateRelatedSlugs posts).filter
        (fun e => e.type == Severity.error)).length :=
      (filter_pos_iff_any _ _).mpr hany
    have hne : (validateBlogPosts posts ++ validateRelatedSlugs posts).isEmpty = false := by
      cases h : (validateBlogPosts posts ++ validateRelatedSlugs posts) with
      | nil => rw [h] at hany; exact absurd hany (by decide)
      | cons a t => rfl
    rw [hne]
    rw [if_neg (show ¬(false = true) by decide), if_pos hpos,
      if_pos (show (true = true) from rfl)]
  | false =>
    have hz : ¬ 0 < ((validateBlogPosts posts ++ validateRelatedSlugs posts).filter
        (fun e => e.type == Severity.error)).length := by
      rw [filter_pos_iff_any, hany]; exact (by decide)
    cases hemp : (validateBlogPosts posts ++ validateRelatedSlugs posts).isEmpty with
    | false =>
      rw [if_neg (show ¬(false = true) by decide), if_neg (show ¬(false = true) by decide),
        if_neg hz]
    | true =>
      rw [if_pos (show (true = true) from rfl), if_neg (show ¬(false = true) by decide)]

/-- C1: the run's exit status is failure (1) if and only if at least one
error-severity finding exists across the whole run (field findings plus link
findings); any number of warning-severity findings with zero errors yields
success status (0). -/
theorem exit_status_iff_error_exists (posts : List BlogPost) :
    (mainExitCode posts = 1 ↔
      ((validateBlogPosts posts ++ validateRelatedSlugs posts).any
        (fun e => e.type == Severity.error)) = true)
    ∧ (mainExitCode posts = 0 ↔
      ((validateBlogPosts posts ++ validateRelatedSlugs posts).all
        (fun e => e.type == Severity.warning)) = true) := by
  rw [mainExitCode_eq_if]
  cases hany : (validateBlogPosts posts ++ validateRelatedSlugs posts).any
      (fun e => e.type == Severity.error) with
  | true =>
    have hallf : (validateBlogPosts posts ++ validateRelatedSlugs posts).all
        (fun e => e.type == Severity.warning) = false := by
      rcases List.any_eq_true.mp hany with ⟨x, hx, hxe⟩
      have hxt : x.type = Severity.error := by
        cases hxt : x.type
        · rfl
        · rw [hxt] at hxe; exact absurd hxe (by decide)
      cases hall : (validateBlogPosts posts ++ validateRelatedSlugs posts).all
          (fun e => e.type == Severity.warning) with
      | false => rfl
      | true =>
        have hw := List.all_eq_true.mp hall x hx
        rw [hxt] at hw; exact absurd hw (by decide)
    simp [hany, hallf]
  | false =>
    have hall : (validateBlogPosts posts ++ validateRelatedSlugs posts).all
        (fun e => e.type == Severity.warning) = true := by
      rw [List.all_eq_true]
      intro x hx
      cases hxt : x.type with
      | error =>
        have hx2 : (validateBlogPosts posts ++ validateRelatedSlugs posts).any
            (fun e => e.type == Severity.error) = true :=
          List.any_eq_true.mpr ⟨x, hx, by rw [hxt]; rfl⟩
        rw [hx2] at hany; exact absurd hany (by decide)
      | warning => rfl
    simp [hany, hall]

lemma langGet_eq_none_of_absent (posts : List BlogPost) (l : Lang) (s : String)
    (habs : ∀ q ∈ posts, q.lang = l → q.slug ≠ s) :
    langGet posts l s = none := by
  unfold langGet
  have hnil : posts.filter (fun q => q.lang == l && q.slug == s) = [] := by
    rw [List.filter_eq_nil_iff]
    intro q hq hcontra
    rw [Bool.and_eq_true, beq_iff_eq, beq_iff_eq] at hcontra
    exact habs q hq hcontra.1 hcontra.2
  rw [hnil]
  rfl

/-- C4 (counterexample): a post whose `relatedSlug` equals its own slug but is
the empty string (so falsy in JavaScript) gets the missing-translation-link
warning, not the self-reference error the claim promises. -/
theorem self_reference_counterexample :
    (List.lookup "relatedSlug"
      (BlogPost.mk .en "" "self.md" [("relatedSlug", .str "")]).data
      = some (.str (BlogPost.mk .en "" "self.md" [("relatedSlug", .str "")]).slug)) ∧
    linkFindings [BlogPost.mk .en "" "self.md" [("relatedSlug", .str "")]]
        (BlogPost.mk .en "" "self.md" [("relatedSlug", .str "")]) =
      [⟨.warning, "self.md", "No translation link (relatedSlug) specified"⟩] := by
  constructor
  · rfl
  · rfl

/-- C4 (amended): a post whose `relatedSlug` is a non-empty string equal to its
own slug yields exactly the self-reference error and no other link finding for
that post. -/
theorem self_reference_rejection (posts : List BlogPost) (p : BlogPost)
    (hrel : List.lookup "relatedSlug" p.data = some (.str p.slug))
    (hne : p.slug ≠ "") :
    linkFindings posts p =
      [⟨.error, relFile p, "relatedSlug points to itself: \"" ++ p.slug ++ "\""⟩] := by
  unfold linkFindings
  rw [hrel]
  have htruthy : truthyV (.str p.slug) = true := by
    simp [truthyV, hne]
  have hself : fmEqStr (.str p.slug) p.slug = true := by
    simp [fmEqStr]
  dsimp only
  rw [htruthy, hself]
  rw [if_neg (show ¬((!true) = true) by decide), if_pos (show (true = true) from rfl)]
  rfl

/-- C4 (amended, witness). -/
theorem self_reference_rejection_witness :
    (List.lookup "relatedSlug"
      (BlogPost.mk .en "x" "x.md" [("relatedSlug", .str "x")]).data
      = some (.str (BlogPost.mk .en "x" "x.md" [("relatedSlug", .str "x")]).slug)) ∧
    ((BlogPost.mk .en "x" "x.md" [("relatedSlug", .str "x")]).slug ≠ "") ∧
    linkFindings [BlogPost.mk .en "x" "x.md" [("relatedSlug", .str "x")]]
        (BlogPost.mk .en "x" "x.md" [("relatedSlug", .str "x")]) =
      [⟨.error, "x.md", "relatedSlug points to itself: \"x\""⟩] :=
  ⟨rfl, by decide,
    self_reference_rejection _ _ rfl (by decide)⟩

/-- C6: a post whose `relatedSlug` is a non-empty string, differs from its own
slug, and names a slug absent from the opposite language partition gets exactly
one not-found error and no further link finding. -/
theorem dangling_reference_detection (posts : List BlogPost) (p : BlogPost) (s : String)
    (hrel : List.lookup "relatedSlug" p.data = some (.str s))
    (hne : s ≠ "")
    (hself : s ≠ p.slug)
    (habs : ∀ q ∈ posts, q.lang = oppositeLang p.lang → q.slug ≠ s) :
    linkFindings posts p =
      [⟨.error, relFile p, "relatedSlug \"" ++ s ++ "\" not found in "
        ++ langName (oppositeLang p.lang) ++ " posts"⟩] := by
  have hget : langGet posts (oppositeLang p.lang) s = none :=
    langGet_eq_none_of_absent _ _ _ habs
  have htruthy : truthyV (.str s) = true := by simp [truthyV, hne]
  have hselfb : fmEqStr (.str s) p.slug = false := by simp [fmEqStr, hself]
  have hmap : mapGetFM posts (oppositeLang p.lang) (.str s) = none := by
    simpa [mapGetFM] using hget
  unfold linkFindings
  rw [hrel]
  dsimp only
  rw [htruthy, hselfb]
  rw [if_neg (show ¬((!true) = true) by decide), if_neg (show ¬(false = true) by decide)]
  rw [hmap]
  rfl

/-- C6 (witness). -/
theorem dangling_reference_detection_witness :
    (List.lookup "relatedSlug"
      (BlogPost.mk .en "a" "a.md" [("relatedSlug", .str "b")]).data = some (.str "b")) ∧
    ("b" ≠ "") ∧
    ("b" ≠ (BlogPost.mk .en "a" "a.md" [("relatedSlug", .str "b")]).slug) ∧
    (∀ q ∈ [BlogPost.mk .en "a" "a.md" [("relatedSlug", .str "b")]],
      q.lang = oppositeLang (BlogPost.mk .en "a" "a.md" [("relatedSlug", .str "b")]).lang →
      q.slug ≠ "b") ∧
    linkFindings [BlogPost.mk .en "a" "a.md" [("relatedSlug", .str "b")]]
        (BlogPost.mk .en "a" "a.md" [("relatedSlug", .str "b")]) =
      [⟨.error, "a.md", "relatedSlug \"b\" not found in es posts"⟩] :=
  ⟨rfl, by decide, by decide, by decide,
    dangling_reference_detection _ _ "b" rfl (by decide) (by decide) (by decide)⟩

/-- C5 (counterexample): two posts in opposite language partitions with the
same slug `x`, each declaring `relatedSlug: x`, satisfy the claim's premise
(each post's `relatedSlug` equals the other's slug and vice versa), yet the
link validator emits a self-reference error for each of them instead of no
finding. -/
theorem symmetry_requirement_counterexample :
    ((BlogPost.mk .en "x" "xa.md" [("relatedSlug", .str "x")]).lang ≠
      (BlogPost.mk .es "x" "xb.md" [("relatedSlug", .str "x")]).lang) ∧
    (List.lookup "relatedSlug" (BlogPost.mk .en "x" "xa.md" [("relatedSlug", .str "x")]).data
      = some (.str (BlogPost.mk .es "x" "xb.md" [("relatedSlug", .str "x")]).slug)) ∧
    (List.lookup "relatedSlug" (BlogPost.mk .es "x" "xb.md" [("relatedSlug", .str "x")]).data
      = some (.str (BlogPost.mk .en "x" "xa.md" [("relatedSlug", .str "x")]).slug)) ∧
    validateRelatedSlugs
        [BlogPost.mk .en "x" "xa.md" [("relatedSlug", .str "x")],
         BlogPost.mk .es "x" "xb.md" [("relatedSlug", .str "x")]] =
      [⟨.error, "xa.md", "relatedSlug points to itself: \"x\""⟩,
       ⟨.error, "xb.md", "relatedSlug points to itself: \"x\""⟩] := by
  refine ⟨by decide, rfl, rfl, ?_⟩
  rfl

/-- C5 (amended): for two posts A and B in opposite language partitions with
distinct non-empty slugs, mutually linked (A.relatedSlug = B.slug and
B.relatedSlug = A.slug), where the opposite-partition map lookup of each slug
resolves to the respective post, the link validator emits no finding for A
and none for B. -/
theorem symmetry_requirement_amended (posts : List BlogPost) (A B : BlogPost)
    (hlang : A.lang ≠ B.lang)
    (hA : List.lookup "relatedSlug" A.data = some (.str B.slug))
    (hB : List.lookup "relatedSlug" B.data = some (.str A.slug))
    (hAne : A.slug ≠ "") (hBne : B.slug ≠ "") (hslug : A.slug ≠ B.slug)
    (hgetB : langGet posts B.lang B.slug = some B)
    (hgetA : langGet posts A.lang A.slug = some A) :
    linkFindings posts A = [] ∧ linkFindings posts B = [] := by
  have hoppA : oppositeLang A.lang = B.lang := oppositeLang_of_ne hlang
  have hoppB : oppositeLang B.lang = A.lang := oppositeLang_of_ne (Ne.symm hlang)
  constructor
  · have hmap : mapGetFM posts (oppositeLang A.lang) (.str B.slug) = some B := by
      simp [mapGetFM, hoppA, hgetB]
    have hback : fmOptEqStr (List.lookup "relatedSlug" B.data) A.slug = true := by
      rw [hB]; simp [fmOptEqStr, fmEqStr]
    unfold linkFindings
    rw [hA]
    dsimp only
    rw [show truthyV (.str B.slug) = true by simp [truthyV, hBne]]
    rw [show fmEqStr (.str B.slug) A.slug = false by
      simp only [fmEqStr]; exact beq_eq_false_iff_ne.mpr (Ne.symm hslug)]
    rw [if_neg (show ¬((!true) = true) by decide), if_neg (show ¬(false = true) by decide)]
    rw [hmap]
    dsimp only
    rw [hback]
    rw [if_neg (show ¬((!true) = true) by decide)]
  · have hmap : mapGetFM posts (oppositeLang B.lang) (.str A.slug) = some A := by
      simp [mapGetFM, hoppB, hgetA]
    have hback : fmOptEqStr (List.lookup "relatedSlug" A.data) B.slug = true := by
      rw [hA]; simp [fmOptEqStr, fmEqStr]
    unfold linkFindings
    rw [hB]
    dsimp only
    rw [show truthyV (.str A.slug) = true by simp [truthyV, hAne]]
    rw [show fmEqStr (.str A.slug) B.slug = false by
      simp only [fmEqStr]; exact beq_eq_false_iff_ne.mpr hslug]
    rw [if_neg (show ¬((!true) = true) by decide), if_neg (show ¬(false = true) by decide)]
    rw [hmap]
    dsimp only
    rw [hback]
    rw [if_neg (show ¬((!true) = true) by decide)]

/-- C5 (amended, witness): spec example scenario 1, a correctly linked pair
produces no link finding on either side. -/
theorem symmetry_requirement_amended_witness :
    (fooEs.lang ≠ fooEn.lang) ∧
    (langGet [fooEs, fooEn] .en "foo-en" = some fooEn) ∧
    (langGet [fooEs, fooEn] .es "foo" = some fooEs) ∧
    linkFindings [fooEs, fooEn] fooEs = [] ∧
    linkFindings [fooEs, fooEn] fooEn = [] :=
  ⟨by decide, by decide, by decide,
    (symmetry_requirement_amended [fooEs, fooEn] fooEs fooEn (by decide) rfl rfl
      (by decide) (by decide) (by decide) (by decide) (by decide)).1,
    (symmetry_requirement_amended [fooEs, fooEn] fooEs fooEn (by decide) rfl rfl
      (by decide) (by decide) (by decide) (by decide) (by decide)).2⟩

/-- C2 (counterexample): A links to B but B links to the non-existent slug
`zzz`.  The claim's premise holds (A.relatedSlug = B.slug and B.relatedSlug
differs from A.slug), yet B receives a not-found error rather than a mismatch
error, so no mismatch finding is emitted for B's file. -/
theorem asymmetry_detection_counterexample :
    (List.lookup "relatedSlug" chainA.data = some (.str danglingB.slug)) ∧
    (¬ fmOptEqStr (List.lookup "relatedSlug" danglingB.data) chainA.slug = true) ∧
    validateRelatedSlugs [chainA, danglingB] =
      [⟨.error, "a.md",
        "relatedSlug mismatch: this post links to \"b\", but that post links to \"zzz\" instead of \"a\""⟩,
       ⟨.error, "b.md", "relatedSlug \"zzz\" not found in en posts"⟩] ∧
    ((validateRelatedSlugs [chainA, danglingB]).countP
      (fun e => e.file == "b.md" &&
        List.isPrefixOf "relatedSlug mismatch".data e.message.data)) = 0 := by
  refine ⟨rfl, by decide, rfl, by decide⟩

lemma data_append (s t : String) : (s ++ t).data = s.data ++ t.data := rfl

lemma isPrefixOf_append_false (pat f r : List Char)
    (h : (pat.take f.length).isPrefixOf f = false) :
    pat.isPrefixOf (f ++ r) = false := by
  induction pat generalizing f with
  | nil => simp [List.isPrefixOf] at h
  | cons p ps ih =>
    cases f with
    | nil => simp [List.isPrefixOf] at h
    | cons x xs =>
      rw [List.length_cons, List.take_succ_cons] at h
      rw [show (p :: List.take xs.length ps).isPrefixOf (x :: xs) =
          ((p == x) && (List.take xs.length ps).isPrefixOf xs) from rfl] at h
      rw [List.cons_append]
      rw [show (p :: ps).isPrefixOf (x :: (xs ++ r)) =
          ((p == x) && ps.isPrefixOf (xs ++ r)) from rfl]
      cases hpx : (p == x) with
      | false => rfl
      | true =>
        rw [hpx] at h
        simp only [Bool.true_and] at h ⊢
        exact ih xs h

lemma mismatch_only_when (posts : List BlogPost) (p : BlogPost)
    (h : ∃ fd ∈ linkFindings posts p, isMismatchMsg fd.message = true) :
    ∃ t, List.lookup "relatedSlug" p.data = some (.str t) ∧ t ≠ "" ∧ t ≠ p.slug ∧
      ∃ C, langGet posts (oppositeLang p.lang) t = some C ∧
        fmOptEqStr (List.lookup "relatedSlug" C.data) p.slug = false := by
  rcases h with ⟨fd, hfd, hmsg⟩
  unfold linkFindings at hfd
  cases hrel : List.lookup "relatedSlug" p.data with
  | none =>
    rw [hrel] at hfd
    simp only [List.mem_singleton] at hfd
    rw [hfd] at hmsg
    dsimp only at hmsg
    exact absurd hmsg (by decide)
  | some v =>
    rw [hrel] at hfd
    dsimp only at hfd
    by_cases htr : (!truthyV v) = true
    · rw [if_pos htr] at hfd
      simp only [List.mem_singleton] at hfd
      rw [hfd] at hmsg
      dsimp only at hmsg
      exact absurd hmsg (by decide)
    · rw [if_neg htr] at hfd
      by_cases hself : fmEqStr v p.slug = true
      · rw [if_pos hself] at hfd
        simp only [List.mem_singleton] at hfd
        rw [hfd] at hmsg
        dsimp only at hmsg
        simp only [isMismatchMsg, data_append, List.append_assoc] at hmsg
        rw [isPrefixOf_append_false _ _ _ (by decide)] at hmsg
        exact absurd hmsg (by decide)
      · rw [if_neg hself] at hfd
        cases hmap : mapGetFM posts (oppositeLang p.lang) v with
        | none =>
          rw [hmap] at hfd
          simp only [List.mem_singleton] at hfd
          rw [hfd] at hmsg
          dsimp only at hmsg
          simp only [isMismatchMsg, data_append, List.append_assoc] at hmsg
          rw [isPrefixOf_append_false _ _ _ (by decide)] at hmsg
          exact absurd hmsg (by decide)
        | some C =>
          rw [hmap] at hfd
          dsimp only at hfd
          by_cases hback :
              (!fmOptEqStr (List.lookup "relatedSlug" C.data) p.slug) = true
          · cases v with
            | str t =>
              have htne : t ≠ "" := by
                intro he
                apply htr
                rw [he]
                rfl
              have htslug : t ≠ p.slug := by
                intro he
                apply hself
                rw [he]
                simp [fmEqStr]
              have hb : fmOptEqStr (List.lookup "relatedSlug" C.data) p.slug = false := by
                cases hx : fmOptEqStr (List.lookup "relatedSlug" C.data) p.slug with
                | false => rfl
                | true => rw [hx] at hback; exact absurd hback (by decide)
              exact ⟨t, rfl, htne, htslug, C, hmap, hb⟩
            | bool b => simp [mapGetFM] at hmap
            | arr xs => simp [mapGetFM] at hmap
            | obj fl => simp [mapGetFM] at hmap
          · rw [if_neg hback] at hfd
            simp at hfd

/-- C2 (amended): when A links to B's slug (A and B in opposite partitions,
distinct non-empty slugs, B the post the opposite-partition map lookup
resolves to) and B does not link back to A, the validator always emits
exactly one mismatch error for A; B receives a mismatch finding exactly one
time when B's own link is a non-empty, non-self slug resolving to a post
that does not link back to B, and only when those conditions hold — in the
remaining cases B's pass yields no mismatch finding. -/
theorem asymmetry_detection_amended (posts : List BlogPost) (A B : BlogPost)
    (hlang : A.lang ≠ B.lang)
    (hA : List.lookup "relatedSlug" A.data = some (.str B.slug))
    (hBne : B.slug ≠ "") (hABslug : B.slug ≠ A.slug)
    (hgetB : langGet posts B.lang B.slug = some B)
    (hBback : fmOptEqStr (List.lookup "relatedSlug" B.data) A.slug = false) :
    linkFindings posts A =
      [⟨.error, relFile A,
        "relatedSlug mismatch: this post links to \"" ++ B.slug
          ++ "\", but that post links to \"" ++ fmOptToString (List.lookup "relatedSlug" B.data)
          ++ "\" instead of \"" ++ A.slug ++ "\""⟩] ∧
    (∀ t C, List.lookup "relatedSlug" B.data = some (.str t) → t ≠ "" → t ≠ B.slug →
      langGet posts (oppositeLang B.lang) t = some C →
      fmOptEqStr (List.lookup "relatedSlug" C.data) B.slug = false →
      linkFindings posts B =
        [⟨.error, relFile B,
          "relatedSlug mismatch: this post links to \"" ++ t
            ++ "\", but that post links to \"" ++ fmOptToString (List.lookup "relatedSlug" C.data)
            ++ "\" instead of \"" ++ B.slug ++ "\""⟩]) ∧
    ((∃ fd ∈ linkFindings posts B, isMismatchMsg fd.message = true) →
      ∃ t, List.lookup "relatedSlug" B.data = some (.str t) ∧ t ≠ "" ∧ t ≠ B.slug ∧
        ∃ C, langGet posts (oppositeLang B.lang) t = some C ∧
          fmOptEqStr (List.lookup "relatedSlug" C.data) B.slug = false) := by
  have hoppA : oppositeLang A.lang = B.lang := oppositeLang_of_ne hlang
  refine ⟨?_, ?_, mismatch_only_when posts B⟩
  · have hmap : mapGetFM posts (oppositeLang A.lang) (.str B.slug) = some B := by
      simp [mapGetFM, hoppA, hgetB]
    unfold linkFindings
    rw [hA]
    dsimp only
    rw [show truthyV (.str B.slug) = true by simp [truthyV, hBne]]
    rw [show fmEqStr (.str B.slug) A.slug = false by
      simp only [fmEqStr]; exact beq_eq_false_iff_ne.mpr hABslug]
    rw [if_neg (show ¬((!true) = true) by decide), if_neg (show ¬(false = true) by decide)]
    rw [hmap]
    dsimp only
    rw [hBback]
    rw [if_pos (show ((!false) = true) from rfl)]
    rfl
  · intro t C hB htne htB hgetC hCback
    have hmap : mapGetFM posts (oppositeLang B.lang) (.str t) = some C := by
      simp [mapGetFM, hgetC]
    unfold linkFindings
    rw [hB]
    dsimp only
    rw [show truthyV (.str t) = true by simp [truthyV, htne]]
    rw [show fmEqStr (.str t) B.slug = false by
      simp only [fmEqStr]; exact beq_eq_false_iff_ne.mpr htB]
    rw [if_neg (show ¬((!true) = true) by decide), if_neg (show ¬(false = true) by decide)]
    rw [hmap]
    dsimp only
    rw [hCback]
    rw [if_pos (show ((!false) = true) from rfl)]
    rfl

/-- C2 (amended, witness): in the chain a→b, b→c, c→q, the base premise alone
gives A's single mismatch error, and B's link conditions give B's single
mismatch error. -/
theorem asymmetry_detection_amended_witness :
    (chainA.lang ≠ chainB.lang) ∧
    (langGet [chainA, chainB, chainC] chainB.lang chainB.slug = some chainB) ∧
    linkFindings [chainA, chainB, chainC] chainA =
      [⟨.error, "a.md",
        "relatedSlug mismatch: this post links to \"b\", but that post links to \"c\" instead of \"a\""⟩] ∧
    linkFindings [chainA, chainB, chainC] chainB =
      [⟨.error, "b.md",
        "relatedSlug mismatch: this post links to \"c\", but that post links to \"q\" instead of \"b\""⟩] :=
  ⟨by decide, by decide,
    (asymmetry_detection_amended [chainA, chainB, chainC] chainA chainB
      (by decide) rfl (by decide) (by decide) (by decide) (by decide)).1,
    (asymmetry_detection_amended [chainA, chainB, chainC] chainA chainB
      (by decide) rfl (by decide) (by decide) (by decide) (by decide)).2.1
      "c" chainC rfl (by decide) (by decide) (by decide) (by decide)⟩

lemma cpm_self (p : BlogPost) (f : String)
    (h : truthyOpt (List.lookup f p.data) = false) :
    (missingFieldCheck p f).countP
      (fun e => e.message == "Missing required field: " ++ f) = 1 := by
  unfold missingFieldCheck
  rw [h, if_neg (show ¬(false = true) by decide)]
  simp [List.countP_cons]

lemma cpm_other (p : BlogPost) (g m : String)
    (hne : (("Missing required field: " ++ g) == m) = false) :
    (missingFieldCheck p g).countP (fun e => e.message == m) = 0 := by
  unfold missingFieldCheck
  cases h : truthyOpt (List.lookup g p.data) with
  | false => rw [if_neg (show ¬(false = true) by decide)]; simp [List.countP_cons, hne]
  | true => rw [if_pos rfl]; rfl

lemma cp_draft (p : BlogPost) (m : String)
    (h : (("Missing 'draft' field (defaults to false)" : String) == m) = false) :
    (draftCheck p).countP (fun e => e.message == m) = 0 := by
  unfold draftCheck
  cases List.lookup "draft" p.data <;> simp [List.countP_cons, h]

lemma countP_singleton_zero (t : Severity) (fl msg m : String)
    (h : (msg == m) = false) :
    ([⟨t, fl, msg⟩] : List ValidationError).countP (fun e => e.message == m) = 0 := by
  simp [List.countP_cons, h]

lemma cp_tags (p : BlogPost) (m : String)
    (h : (("No tags specified" : String) == m) = false) :
    (tagsCheck p).countP (fun e => e.message == m) = 0 := by
  unfold tagsCheck
  cases List.lookup "tags" p.data with
  | none => exact countP_singleton_zero _ _ _ _ h
  | some v =>
    dsimp only
    by_cases hc : (!truthyV v || lengthIsZero v) = true
    · rw [if_pos hc]; exact countP_singleton_zero _ _ _ _ h
    · rw [if_neg hc]; rfl

lemma cp_author (p : BlogPost) (m : String)
    (h : (("Missing 'author' field (defaults to Óscar Gallego)" : String) == m) = false) :
    (authorCheck p).countP (fun e => e.message == m) = 0 := by
  unfold authorCheck
  split <;> simp [List.countP_cons, h]

lemma cp_image (p : BlogPost) (m : String)
    (h1 : (("No image specified" : String) == m) = false)
    (h2 : (("Image object missing 'url' field" : String) == m) = false)
    (h3 : (("Image missing 'alt' text" : String) == m) = false) :
    (imageCheck p).countP (fun e => e.message == m) = 0 := by
  unfold imageCheck
  cases List.lookup "image" p.data with
  | none => exact countP_singleton_zero _ _ _ _ h1
  | some v =>
    dsimp only
    by_cases h4 : (!truthyV v) = true
    · rw [if_pos h4]; exact countP_singleton_zero _ _ _ _ h1
    · rw [if_neg h4]
      by_cases h5 : (!strTruthyOpt (getProp v "url")) = true
      · rw [if_pos h5]; exact countP_singleton_zero _ _ _ _ h2
      · rw [if_neg h5]
        by_cases h6 : (!strTruthyOpt (getProp v "alt")) = true
        · rw [if_pos h6]; exact countP_singleton_zero _ _ _ _ h3
        · rw [if_neg h6]; rfl

/-- C3: for every post and every required field (title, description, pubDate,
relatedSlug), an absent or empty field yields exactly one error finding with
the message naming that field, the expected error finding for that post is
among its findings, and the field validator treats every other post
independently (its output over any surrounding list splits into the
per-post outputs). -/
theorem missing_required_field_exactly_one (xs ys : List BlogPost) (p : BlogPost) (f : String)
    (hf : f ∈ requiredFields)
    (habs : List.lookup f p.data = none ∨ List.lookup f p.data = some (.str "")) :
    ((fieldFindings p).countP (fun e => e.message == "Missing required field: " ++ f) = 1) ∧
    ((⟨.error, relFile p, "Missing required field: " ++ f⟩ : ValidationError) ∈ fieldFindings p) ∧
    validateBlogPosts (xs ++ p :: ys) =
      validateBlogPosts xs ++ fieldFindings p ++ validateBlogPosts ys := by
  have htr : truthyOpt (List.lookup f p.data) = false := by
    rcases habs with h | h <;> rw [h] <;> rfl
  have hmem : (⟨.error, relFile p, "Missing required field: " ++ f⟩ : ValidationError)
      ∈ missingFieldCheck p f := by
    unfold missingFieldCheck
    rw [htr, if_neg (show ¬(false = true) by decide)]
    exact List.mem_singleton.mpr rfl
  refine ⟨?_, ?_, ?_⟩
  · simp only [requiredFields, List.mem_cons] at hf
    have hsplit : fieldFindings p =
        missingFieldCheck p "title" ++ missingFieldCheck p "description"
          ++ missingFieldCheck p "pubDate" ++ missingFieldCheck p "relatedSlug"
          ++ draftCheck p ++ tagsCheck p ++ authorCheck p ++ imageCheck p := by
      unfold fieldFindings
      simp [requiredFields]
    rw [hsplit]
    simp only [List.countP_append]
    rcases hf with rfl | rfl | rfl | rfl | h0
    · rw [cpm_self p "title" htr, cpm_other p "description" _ (by decide),
        cpm_other p "pubDate" _ (by decide), cpm_other p "relatedSlug" _ (by decide),
        cp_draft p _ (by decide), cp_tags p _ (by decide), cp_author p _ (by decide),
        cp_image p _ (by decide) (by decide) (by decide)]
    · rw [cpm_self p "description" htr, cpm_other p "title" _ (by decide),
        cpm_other p "pubDate" _ (by decide), cpm_other p "relatedSlug" _ (by decide),
        cp_draft p _ (by decide), cp_tags p _ (by decide), cp_author p _ (by decide),
        cp_image p _ (by decide) (by decide) (by decide)]
    · rw [cpm_self p "pubDate" htr, cpm_other p "title" _ (by decide),
        cpm_other p "description" _ (by decide), cpm_other p "relatedSlug" _ (by decide),
        cp_draft p _ (by decide), cp_tags p _ (by decide), cp_author p _ (by decide),
        cp_image p _ (by decide) (by decide) (by decide)]
    · rw [cpm_self p "relatedSlug" htr, cpm_other p "title" _ (by decide),
        cpm_other p "description" _ (by decide), cpm_other p "pubDate" _ (by decide),
        cp_draft p _ (by decide), cp_tags p _ (by decide), cp_author p _ (by decide),
        cp_image p _ (by decide) (by decide) (by decide)]
    · cases h0
  · have hfm : (⟨.error, relFile p, "Missing required field: " ++ f⟩ : ValidationError)
        ∈ requiredFields.flatMap (missingFieldCheck p) :=
      List.mem_flatMap.mpr ⟨f, hf, hmem⟩
    unfold fieldFindings
    exact List.mem_append_left _ (List.mem_append_left _
      (List.mem_append_left _ (List.mem_append_left _ hfm)))
  · unfold validateBlogPosts
    rw [List.flatMap_append, List.flatMap_cons, List.append_assoc]
/-- C3 (witness): the post `sparse` lacks `title`; exactly one missing-title
error results, and the run splits per post. -/
theorem missing_required_field_exactly_one_witness :
    ("title" ∈ requiredFields) ∧
    (List.lookup "title" sparse.data = none ∨
      List.lookup "title" sparse.data = some (.str "")) ∧
    ((fieldFindings sparse).countP
      (fun e => e.message == "Missing required field: " ++ "title") = 1) ∧
    ((⟨.error, relFile sparse, "Missing required field: " ++ "title"⟩ : ValidationError)
      ∈ fieldFindings sparse) ∧
    (validateBlogPosts ([] ++ sparse :: []) =
      validateBlogPosts [] ++ fieldFindings sparse ++ validateBlogPosts []) :=
  ⟨by decide, Or.inl rfl,
   (missing_required_field_exactly_one [] [] sparse "title" (by decide) (Or.inl rfl)).1,
   (missing_required_field_exactly_one [] [] sparse "title" (by decide) (Or.inl rfl)).2.1,
   (missing_required_field_exactly_one [] [] sparse "title" (by decide) (Or.inl rfl)).2.2⟩

/-- C9: the validator is deterministic — two runs over equal directory
snapshots produce identical finding sequences and identical exit status.  The
embedding is a pure function of the loaded snapshot, so equal inputs give
equal outputs; there is no hidden state between runs. -/
theorem validator_deterministic (es1 en1 es2 en2 : List (String × String))
    (h1 : es1 = es2) (h2 : en1 = en2) :
    runValidator es1 en1 = runValidator es2 en2 := by
  rw [h1, h2]

/-- C9 (witness): two runs over the same concrete snapshot agree, and the
snapshot's exit status evaluates concretely (to failure, as required fields
are missing). -/
theorem validator_deterministic_witness :
    ([("foo.md", "---\ntitle: Hola\n---")] : List (String × String)) =
      [("foo.md", "---\ntitle: Hola\n---")] ∧
    runValidator [("foo.md", "---\ntitle: Hola\n---")] [] =
      runValidator [("foo.md", "---\ntitle: Hola\n---")] [] ∧
    (runValidator [("foo.md", "---\ntitle: Hola\n---")] []).2 = 1 :=
  ⟨rfl,
   validator_deterministic [("foo.md", "---\ntitle: Hola\n---")] []
     [("foo.md", "---\ntitle: Hola\n---")] [] rfl rfl,
   by decide⟩

lemma fmFindFrom_attempt (rest : List Char) (j : Nat) (g : List Char)
    (h : fmFindFrom rest j = some g) : ∃ i, i ≤ j ∧ fmAttempt rest i = some g := by
  induction j with
  | zero => exact ⟨0, Nat.le_refl 0, h⟩
  | succ n ih =>
    rw [fmFindFrom] at h
    cases ha : fmAttempt rest (n + 1) with
    | some g2 =>
      rw [ha] at h
      exact ⟨n + 1, Nat.le_refl _, by rw [ha]; exact h⟩
    | none =>
      rw [ha] at h
      rcases ih h with ⟨i, hi, hatt⟩
      exact ⟨i, Nat.le_succ_of_le hi, hatt⟩

lemma fmAttempt_sound (rest : List Char) (i : Nat) (g : List Char)
    (h : fmAttempt rest i = some g) :
    (rest.take i).all isWS = true ∧ rest.get? i = some '\n' ∧
      (findSub ['\n', '-', '-', '-'] (rest.drop (i + 1))).isSome = true := by
  unfold fmAttempt at h
  split at h
  · next hc =>
    cases hf : findSub ['\n', '-', '-', '-'] (rest.drop (i + 1)) with
    | some k => exact ⟨hc.1, hc.2, rfl⟩
    | none => rw [hf] at h; cases h
  · cases h

lemma hasHeaderBlock_of_fmMatch (cs : List Char) (g : List Char)
    (h : fmMatch cs = some g) : hasHeaderBlock cs = true := by
  unfold fmMatch at h
  split at h
  · next h3 =>
    rcases fmFindFrom_attempt _ _ _ h with ⟨i, _, hatt⟩
    rcases fmAttempt_sound _ _ _ hatt with ⟨h1, h2, hfs⟩
    have hlt : i < (cs.drop 3).length := by
      rcases List.get?_eq_some.mp h2 with ⟨hl, _⟩
      exact hl
    unfold hasHeaderBlock
    rw [Bool.and_eq_true]
    constructor
    · simp [h3]
    · rw [List.any_eq_true]
      refine ⟨i, ?_, ?_⟩
      · rw [List.mem_range]
        calc i < (cs.drop 3).length := hlt
          _ ≤ cs.length := by rw [List.length_drop]; omega
      · rw [Bool.and_eq_true, Bool.and_eq_true]
        exact ⟨⟨h1, by rw [h2]; rfl⟩, hfs⟩
  · cases h

/-- C8: for a document in which no header block is present (no opening `---`
marker line closed by a later `---` marker), the front-matter parser returns
the empty record; being a total function, it raises nothing. -/
theorem no_header_block_empty_mapping (content : String)
    (h : hasHeaderBlock content.data = false) :
    parseFrontmatter content = [] := by
  unfold parseFrontmatter
  cases hm : fmMatch content.data with
  | none => rfl
  | some g =>
    have hc := hasHeaderBlock_of_fmMatch _ _ hm
    rw [hc] at h
    cases h

/-- C8 (witness): a plain document without front-matter parses to the empty
record. -/
theorem no_header_block_empty_mapping_witness :
    hasHeaderBlock ("Just a plain document.\nNo markers anywhere." : String).data = false ∧
    parseFrontmatter "Just a plain document.\nNo markers anywhere." = [] :=
  ⟨by decide, no_header_block_empty_mapping _ (by decide)⟩

lemma dropWhile_append_cons (p : Char → Bool) (a : List Char) (c : Char) (b : List Char)
    (hc : p c = false) :
    List.dropWhile p (a ++ c :: b) = List.dropWhile p a ++ c :: b := by
  induction a with
  | nil => simp [List.dropWhile_cons, hc]
  | cons x xs ih =>
    cases hx : p x with
    | true => simp [List.dropWhile_cons, hx, ih]
    | false => simp [List.dropWhile_cons, hx]

lemma trimStartL_cons {c : Char} {cs : List Char} (h : isWS c = false) :
    trimStartL (c :: cs) = c :: cs := by
  simp [trimStartL, List.dropWhile_cons, h]

lemma dropWhile_all_false (p : Char → Bool) (l : List Char)
    (h : ∀ x ∈ l, p x = false) : List.dropWhile p l = l := by
  induction l with
  | nil => rfl
  | cons x xs _ => simp [List.dropWhile_cons, h x (List.mem_cons_self x xs)]

lemma trimEndL_append_cons (l : List Char) (c : Char) (v : List Char) (hc : isWS c = false) :
    trimEndL (l ++ c :: v) = l ++ c :: trimEndL v := by
  unfold trimEndL
  rw [show l ++ c :: v = (l ++ [c]) ++ v by simp]
  rw [List.reverse_append, List.reverse_append]
  simp only [List.reverse_cons, List.reverse_nil, List.nil_append]
  rw [List.singleton_append, dropWhile_append_cons _ _ _ _ hc]
  rw [List.reverse_append]
  simp

lemma trimL_keyval (k : List Char) (c : Char) (v : List Char)
    (hk0 : k ≠ []) (hkw : ∀ x ∈ k, isWS x = false) (hc : isWS c = false) :
    trimL (k ++ c :: v) = k ++ c :: trimEndL v := by
  unfold trimL
  cases k with
  | nil => exact absurd rfl hk0
  | cons a as =>
    rw [List.cons_append, trimStartL_cons (hkw a (List.mem_cons_self a as)),
      ← List.cons_append, trimEndL_append_cons _ _ _ hc]

lemma trimL_all_nonws (k : List Char) (hkw : ∀ x ∈ k, isWS x = false) :
    trimL k = k := by
  unfold trimL trimStartL trimEndL
  rw [dropWhile_all_false _ _ hkw,
    dropWhile_all_false _ _ (fun x hx => hkw x (List.mem_reverse.mp hx)),
    List.reverse_reverse]

lemma splitFirst_append (k : List Char) (v : List Char)
    (hk : ∀ c ∈ k, (c == ':') = false) :
    splitFirst ':' (k ++ ':' :: v) = some (k, v) := by
  induction k with
  | nil => simp [splitFirst]
  | cons c cs ih =>
    have hc := hk c (List.mem_cons_self c cs)
    rw [List.cons_append]
    unfold splitFirst
    rw [hc]
    simp only [Bool.false_eq_true, if_false]
    rw [ih (fun x hx => hk x (List.mem_cons_of_mem c hx))]
    rfl

lemma splitAll_no_sep (sep : Char) (l : List Char) (h : ∀ c ∈ l, (c == sep) = false) :
    splitAll sep l = [l] := by
  induction l with
  | nil => rfl
  | cons c cs ih =>
    unfold splitAll
    rw [h c (List.mem_cons_self c cs)]
    simp only [Bool.false_eq_true, if_false]
    rw [ih (fun x hx => h x (List.mem_cons_of_mem c hx))]

lemma findSub_skip (k t : List Char) (hk : ∀ c ∈ k, (c == '\n') = false) :
    findSub ['\n', '-', '-', '-'] (k ++ t) =
      (findSub ['\n', '-', '-', '-'] t).map (· + k.length) := by
  induction k with
  | nil => cases hf : findSub ['\n', '-', '-', '-'] t <;> simp [hf]
  | cons c cs ih =>
    have hc := hk c (List.mem_cons_self c cs)
    have hnc : ('\n' : Char) ≠ c := fun h => (beq_eq_false_iff_ne.mp hc) h.symm
    have hpre : (['\n', '-', '-', '-'] : List Char).isPrefixOf (c :: (cs ++ t)) = false := by
      unfold List.isPrefixOf
      rw [beq_eq_false_iff_ne.mpr hnc]
      rfl
    have ihe := ih (fun x hx => hk x (List.mem_cons_of_mem c hx))
    rw [List.cons_append]
    rw [show findSub ['\n', '-', '-', '-'] (c :: (cs ++ t)) =
      (if (['\n', '-', '-', '-'] : List Char).isPrefixOf (c :: (cs ++ t)) then some 0
       else (findSub ['\n', '-', '-', '-'] (cs ++ t)).map (· + 1)) from rfl]
    rw [hpre]
    simp only [Bool.false_eq_true, if_false]
    rw [ihe]
    cases hf : findSub ['\n', '-', '-', '-'] t with
    | none => simp [hf]
    | some n => simp [hf]; omega

lemma dash_not_prefix (k w : List Char)
    (hk0 : k ≠ []) (hkw : ∀ x ∈ k, isWS x = false)
    (hw : ∀ x, w.head? = some x → isWS x = false) :
    (['-', ' '] : List Char).isPrefixOf (k ++ w) = false := by
  cases k with
  | nil => exact absurd rfl hk0
  | cons a as =>
    cases as with
    | nil =>
      cases w with
      | nil => simp [List.isPrefixOf]
      | cons x xs =>
        have hx : isWS x = false := hw x rfl
        have hxs : (' ' : Char) ≠ x := by
          intro h
          rw [← h] at hx
          exact absurd hx (by decide)
        simp [List.isPrefixOf, beq_eq_false_iff_ne.mpr hxs]
    | cons b bs =>
      have hb : isWS b = false := hkw b (by simp)
      have hbs : (' ' : Char) ≠ b := by
        intro h
        rw [← h] at hb
        exact absurd hb (by decide)
      simp [List.isPrefixOf, beq_eq_false_iff_ne.mpr hbs]

lemma stepLine_keyval (st : PState) (k v : List Char)
    (hk0 : k ≠ [])
    (hkw : ∀ x ∈ k, isWS x = false)
    (hkc : ∀ x ∈ k, (x == ':') = false)
    (hkh : k.head? ≠ some '#')
    (hvt : trimEndL v = v) :
    stepLine st (k ++ ':' :: v) = rootStep st (k ++ ':' :: v) := by
  have htrim : trimL (k ++ ':' :: v) = k ++ ':' :: v := by
    rw [trimL_keyval k ':' v hk0 hkw (by decide), hvt]
  have hstart : trimStartL (k ++ ':' :: v) = k ++ ':' :: v := by
    cases k with
    | nil => exact absurd rfl hk0
    | cons a as =>
      rw [List.cons_append]
      exact trimStartL_cons (hkw a (List.mem_cons_self a as))
  have hemp : (k ++ ':' :: v).isEmpty = false := by
    cases k with
    | nil => exact absurd rfl hk0
    | cons a as => rfl
  have hhash : ((k ++ ':' :: v).head? == some '#') = false := by
    cases k with
    | nil => exact absurd rfl hk0
    | cons a as =>
      have ha : a ≠ '#' := by
        intro h
        exact hkh (by rw [h]; rfl)
      simp [ha]
  have hdash : (['-', ' '] : List Char).isPrefixOf (k ++ ':' :: v) = false :=
    dash_not_prefix k (':' :: v) hk0 hkw (fun x hx => by
      have : x = ':' := by
        have := hx
        simp at this
        exact this.symm
      rw [this]
      decide)
  have hsf : splitFirst ':' (k ++ ':' :: v) = some (k, v) := splitFirst_append k v hkc
  have h2le : ¬ (2 ≤ 0 ∧ currentKeyTruthy st = true ∧ st.currentObject.isSome = true) :=
    fun h => absurd h.1 (by decide)
  simp only [stepLine, htrim, hstart, hemp, hhash, Bool.or_self, Bool.false_eq_true, if_false,
    Nat.sub_self, hdash, hsf, Option.isSome_some]
  rw [if_neg h2le]
  rw [if_pos (show True ∧ True from ⟨trivial, trivial⟩)]

lemma fmFindFrom_const (rest : List Char)
    (hfail : ∀ i, 1 ≤ i → fmAttempt rest i = none) :
    ∀ j, fmFindFrom rest j = fmAttempt rest 0 := by
  intro j
  induction j with
  | zero => rfl
  | succ n ih =>
    show (match fmAttempt rest (n + 1) with
          | some g => some g
          | none => fmFindFrom rest n) = fmAttempt rest 0
    rw [hfail (n + 1) (by omega)]
    exact ih

lemma fmAttempt_fail_keyval (a : Char) (t : List Char) (ha : isWS a = false) :
    ∀ i, 1 ≤ i → fmAttempt ('\n' :: a :: t) i = none := by
  intro i hi
  unfold fmAttempt
  rw [if_neg]
  rintro ⟨h1, h2⟩
  cases i with
  | zero => exact absurd hi (by decide)
  | succ n =>
    cases n with
    | zero =>
      have h2' : some a = some '\n' := h2
      have ha' : a = '\n' := Option.some.inj h2'
      rw [ha'] at ha
      exact absurd ha (by decide)
    | succ m =>
      have h1' : (('\n' :: a :: t).take (m + 1 + 1)).all isWS = true := h1
      rw [List.take_succ_cons, List.take_succ_cons, List.all_cons, List.all_cons] at h1'
      rw [Bool.and_eq_true, Bool.and_eq_true] at h1'
      have := h1'.2.1
      rw [ha] at this
      exact absurd this (by decide)

lemma fmAttempt_zero_keyval (k v : List Char)
    (hK : ∀ c ∈ k ++ ':' :: v, (c == '\n') = false) :
    fmAttempt ('\n' :: (k ++ ':' :: (v ++ ['\n', '-', '-', '-']))) 0 =
      some (k ++ ':' :: v) := by
  unfold fmAttempt
  rw [if_pos (show (List.all (List.take 0 ('\n' :: (k ++ ':' :: (v ++ ['\n', '-', '-', '-'])))) isWS) = true ∧
      ('\n' :: (k ++ ':' :: (v ++ ['\n', '-', '-', '-']))).get? 0 = some '\n' from ⟨rfl, rfl⟩)]
  have hdrop : List.drop (0 + 1) ('\n' :: (k ++ ':' :: (v ++ ['\n', '-', '-', '-']))) =
      k ++ ':' :: (v ++ ['\n', '-', '-', '-']) := rfl
  have hassoc : k ++ ':' :: (v ++ ['\n', '-', '-', '-']) =
      (k ++ ':' :: v) ++ ['\n', '-', '-', '-'] := by simp
  rw [hdrop, hassoc]
  rw [findSub_skip (k ++ ':' :: v) _ hK]
  rw [show findSub ['\n', '-', '-', '-'] ['\n', '-', '-', '-'] = some 0 from rfl]
  dsimp only [Option.map]
  rw [Nat.zero_add, List.take_left]

lemma fmMatch_keyval (k v : List Char)
    (hk0 : k ≠ []) (hkw : ∀ x ∈ k, isWS x = false)
    (hvn : ∀ x ∈ v, (x == '\n') = false) :
    fmMatch ('-' :: '-' :: '-' :: '\n' :: (k ++ ':' :: (v ++ ['\n', '-', '-', '-']))) =
      some (k ++ ':' :: v) := by
  have hK : ∀ c ∈ k ++ ':' :: v, (c == '\n') = false := by
    intro c hc
    rcases List.mem_append.mp hc with h | h
    · have hcw := hkw c h
      exact beq_eq_false_iff_ne.mpr (fun he => by rw [he] at hcw; exact absurd hcw (by decide))
    · rcases List.mem_cons.mp h with rfl | h2
      · decide
      · exact hvn c h2
  obtain ⟨a, k', rfl⟩ : ∃ a k', k = a :: k' := by
    cases k with
    | nil => exact absurd rfl hk0
    | cons a as => exact ⟨a, as, rfl⟩
  unfold fmMatch
  rw [if_pos (show List.take 3 ('-' :: '-' :: '-' :: '\n' ::
      ((a :: k') ++ ':' :: (v ++ ['\n', '-', '-', '-']))) = ['-', '-', '-'] from rfl)]
  rw [show List.drop 3 ('-' :: '-' :: '-' :: '\n' :: ((a :: k') ++ ':' :: (v ++ ['\n', '-', '-', '-']))) =
      '\n' :: ((a :: k') ++ ':' :: (v ++ ['\n', '-', '-', '-'])) from rfl]
  simp only [List.cons_append]
  rw [fmFindFrom_const _ (fmAttempt_fail_keyval a _ (hkw a (by simp)))]
  exact fmAttempt_zero_keyval (a :: k') v hK

lemma keyval_no_nl (k v : List Char)
    (hkw : ∀ x ∈ k, isWS x = false)
    (hvn : ∀ x ∈ v, (x == '\n') = false) :
    ∀ c ∈ k ++ ':' :: v, (c == '\n') = false := by
  intro c hc
  rcases List.mem_append.mp hc with h | h
  · have hcw := hkw c h
    exact beq_eq_false_iff_ne.mpr (fun he => by rw [he] at hcw; exact absurd hcw (by decide))
  · rcases List.mem_cons.mp h with rfl | h2
    · decide
    · exact hvn c h2

lemma parse_keyval (k v : List Char)
    (hk0 : k ≠ []) (hkw : ∀ x ∈ k, isWS x = false)
    (hkc : ∀ x ∈ k, (x == ':') = false) (hkh : k.head? ≠ some '#')
    (hvt : trimEndL v = v) (hvn : ∀ x ∈ v, (x == '\n') = false) :
    parseFrontmatter (String.mk
        ('-' :: '-' :: '-' :: '\n' :: (k ++ ':' :: (v ++ ['\n', '-', '-', '-'])))) =
      (rootStep ⟨[], none, none, none⟩ (k ++ ':' :: v)).data := by
  unfold parseFrontmatter
  rw [show (String.mk
      ('-' :: '-' :: '-' :: '\n' :: (k ++ ':' :: (v ++ ['\n', '-', '-', '-'])))).data =
      '-' :: '-' :: '-' :: '\n' :: (k ++ ':' :: (v ++ ['\n', '-', '-', '-'])) from rfl]
  rw [fmMatch_keyval k v hk0 hkw hvn]
  dsimp only
  rw [splitAll_no_sep '\n' (k ++ ':' :: v) (keyval_no_nl k v hkw hvn)]
  rw [show List.foldl stepLine ⟨[], none, none, none⟩ [k ++ ':' :: v] =
      stepLine ⟨[], none, none, none⟩ (k ++ ':' :: v) from rfl]
  rw [stepLine_keyval _ k v hk0 hkw hkc hkh hvt]

lemma fieldFindings_split (p : BlogPost) :
    fieldFindings p =
      missingFieldCheck p "title" ++ missingFieldCheck p "description"
        ++ missingFieldCheck p "pubDate" ++ missingFieldCheck p "relatedSlug"
        ++ draftCheck p ++ tagsCheck p ++ authorCheck p ++ imageCheck p := by
  unfold fieldFindings
  simp [requiredFields]

lemma cpm_truthy (p : BlogPost) (f m : String)
    (h : truthyOpt (List.lookup f p.data) = true) :
    (missingFieldCheck p f).countP (fun e => e.message == m) = 0 := by
  unfold missingFieldCheck
  rw [h, if_pos rfl]
  rfl

/-- C7 (counterexample): the document `---\ntags: []\n---` parses `tags` to
the one-element sequence containing the empty string (JavaScript
`"".split(",")` yields `[""]`), not to an empty sequence. -/
theorem empty_inline_array_counterexample :
    List.lookup "tags" (parseFrontmatter "---\ntags: []\n---") =
      some (.arr [""]) ∧
    ¬ List.lookup "tags" (parseFrontmatter "---\ntags: []\n---") =
      some (.arr ([] : List String)) :=
  ⟨by decide, by decide⟩

/-- C7 (amended): for every top-level header line whose value is the empty
inline array `[]`, the parser stores the one-element sequence containing the
empty string (not an empty sequence) for that key. -/
theorem empty_inline_array_amended (k : List Char)
    (hk0 : k ≠ []) (hkw : ∀ x ∈ k, isWS x = false)
    (hkc : ∀ x ∈ k, (x == ':') = false) (hkh : k.head? ≠ some '#') :
    parseFrontmatter (String.mk ('-' :: '-' :: '-' :: '\n' ::
        (k ++ ':' :: ((' ' :: '[' :: ']' :: []) ++ ['\n', '-', '-', '-'])))) =
      [(String.mk k, FMValue.arr [""])] := by
  rw [parse_keyval k (' ' :: '[' :: ']' :: []) hk0 hkw hkc hkh (by decide) (by decide)]
  unfold rootStep
  rw [splitFirst_append k _ hkc]
  dsimp only
  rw [trimL_all_nonws k hkw]
  rfl

/-- C7 (amended, witness): the `tags` key with value `[]`. -/
theorem empty_inline_array_amended_witness :
    (('t' :: 'a' :: 'g' :: 's' :: [] : List Char) ≠ []) ∧
    parseFrontmatter (String.mk ('-' :: '-' :: '-' :: '\n' ::
        (('t' :: 'a' :: 'g' :: 's' :: []) ++ ':' ::
          ((' ' :: '[' :: ']' :: []) ++ ['\n', '-', '-', '-'])))) =
      [(String.mk ('t' :: 'a' :: 'g' :: 's' :: []), FMValue.arr [""])] :=
  ⟨by decide,
    empty_inline_array_amended ('t' :: 'a' :: 'g' :: 's' :: [])
      (by decide) (by decide) (by decide) (by decide)⟩

/-- C10: a top-level header line whose value is empty after quote stripping
stores an empty nested-object placeholder (not an empty string) for that key;
consequently, composing parser and field validator, a post whose header
consists of such a line for a required field receives no missing-field error
for that field. -/
theorem empty_value_no_missing_field (v : List Char) (f : String)
    (hf : f ∈ requiredFields)
    (hvt : trimEndL v = v)
    (hvq : stripQuotes (trimL v) = [])
    (hvn : ∀ x ∈ v, (x == '\n') = false) (lang : Lang) (slug fp : String) :
    (∀ k : List Char, k ≠ [] → (∀ x ∈ k, isWS x = false) →
      (∀ x ∈ k, (x == ':') = false) → k.head? ≠ some '#' →
      parseFrontmatter (String.mk ('-' :: '-' :: '-' :: '\n' ::
          (k ++ ':' :: (v ++ ['\n', '-', '-', '-'])))) =
        [(String.mk k, FMValue.obj [])]) ∧
    (fieldFindings ⟨lang, slug, fp,
        parseFrontmatter (String.mk ('-' :: '-' :: '-' :: '\n' ::
          (f.data ++ ':' :: (v ++ ['\n', '-', '-', '-']))))⟩).countP
      (fun e => e.message == "Missing required field: " ++ f) = 0 := by
  have hgen : ∀ k : List Char, k ≠ [] → (∀ x ∈ k, isWS x = false) →
      (∀ x ∈ k, (x == ':') = false) → k.head? ≠ some '#' →
      parseFrontmatter (String.mk ('-' :: '-' :: '-' :: '\n' ::
          (k ++ ':' :: (v ++ ['\n', '-', '-', '-'])))) =
        [(String.mk k, FMValue.obj [])] := by
    intro k hk0 hkw hkc hkh
    rw [parse_keyval k v hk0 hkw hkc hkh hvt hvn]
    unfold rootStep
    rw [splitFirst_append k _ hkc]
    dsimp only
    rw [trimL_all_nonws k hkw, hvq]
    rfl
  refine ⟨hgen, ?_⟩
  simp only [requiredFields, List.mem_cons] at hf
  rcases hf with rfl | rfl | rfl | rfl | h0
  · rw [hgen ("title" : String).data (by decide) (by decide) (by decide) (by decide)]
    rw [fieldFindings_split]
    simp only [List.countP_append]
    rw [cpm_truthy _ "title" _ (by rfl), cpm_other _ "description" _ (by decide),
      cpm_other _ "pubDate" _ (by decide), cpm_other _ "relatedSlug" _ (by decide),
      cp_draft _ _ (by decide), cp_tags _ _ (by decide), cp_author _ _ (by decide),
      cp_image _ _ (by decide) (by decide) (by decide)]
  · rw [hgen ("description" : String).data (by decide) (by decide) (by decide) (by decide)]
    rw [fieldFindings_split]
    simp only [List.countP_append]
    rw [cpm_truthy _ "description" _ (by rfl), cpm_other _ "title" _ (by decide),
      cpm_other _ "pubDate" _ (by decide), cpm_other _ "relatedSlug" _ (by decide),
      cp_draft _ _ (by decide), cp_tags _ _ (by decide), cp_author _ _ (by decide),
      cp_image _ _ (by decide) (by decide) (by decide)]
  · rw [hgen ("pubDate" : String).data (by decide) (by decide) (by decide) (by decide)]
    rw [fieldFindings_split]
    simp only [List.countP_append]
    rw [cpm_truthy _ "pubDate" _ (by rfl), cpm_other _ "title" _ (by decide),
      cpm_other _ "description" _ (by decide), cpm_other _ "relatedSlug" _ (by decide),
      cp_draft _ _ (by decide), cp_tags _ _ (by decide), cp_author _ _ (by decide),
      cp_image _ _ (by decide) (by decide) (by decide)]
  · rw [hgen ("relatedSlug" : String).data (by decide) (by decide) (by decide) (by decide)]
    rw [fieldFindings_split]
    simp only [List.countP_append]
    rw [cpm_truthy _ "relatedSlug" _ (by rfl), cpm_other _ "title" _ (by decide),
      cpm_other _ "description" _ (by decide), cpm_other _ "pubDate" _ (by decide),
      cp_draft _ _ (by decide), cp_tags _ _ (by decide), cp_author _ _ (by decide),
      cp_image _ _ (by decide) (by decide) (by decide)]
  · cases h0

/-- C10 (witness): the header line `title:` (empty value) parses to an empty
object and produces no missing-title error through the field validator. -/
theorem empty_value_no_missing_field_witness :
    ("title" ∈ requiredFields) ∧
    parseFrontmatter (String.mk ('-' :: '-' :: '-' :: '\n' ::
        (("title" : String).data ++ ':' :: (([] : List Char) ++ ['\n', '-', '-', '-'])))) =
      [(String.mk ("title" : String).data, FMValue.obj [])] ∧
    (fieldFindings ⟨.en, "s", "f.md",
        parseFrontmatter (String.mk ('-' :: '-' :: '-' :: '\n' ::
          (("title" : String).data ++ ':' :: (([] : List Char) ++ ['\n', '-', '-', '-']))))⟩).countP
      (fun e => e.message == "Missing required field: " ++ "title") = 0 :=
  ⟨by decide,
    (empty_value_no_missing_field [] "title" (by decide) rfl rfl (by decide)
      .en "s" "f.md").1 ("title" : String).data (by decide) (by decide) (by decide) (by decide),
    (empty_value_no_missing_field [] "title" (by decide) rfl rfl (by decide)
      .en "s" "f.md").2⟩
